import Mathlib

set_option maxRecDepth 100000

/-!
Verification model of the llm-gateway log-analysis scripts
(`backend/scripts/analyze_conversations.py` and
`backend/scripts/log_analysis_report.py`).

The Python scripts are embedded shallowly: JSON values become an inductive
`Json` type, Python dict/string operations become explicit functions with
"raises" modelled as `Option.none`, and the per-line processing loops become
folds over lists.  Machine behaviour that the scripts rely on (Python `str`
methods, `json.loads`, dict semantics, truthiness) is reproduced by the
helper functions below.
-/

/-- JSON values as produced by Python `json.loads`.  Numbers are modelled by
the integer fragment only (the analysed log fields are token counts and
identifiers); Python `None`, `True`/`False`, strings, lists and dicts map to
the remaining constructors.  Dicts are association lists in insertion order
with unique keys (the parser deduplicates, last value wins, as CPython's
decoder does). -/
inductive Json where
  | null : Json
  | bool (b : Bool) : Json
  | num (n : Int) : Json
  | str (s : String) : Json
  | arr (elems : List Json) : Json
  | obj (entries : List (String × Json)) : Json

mutual

def Json.decEq : (a b : Json) → Decidable (a = b)
  | .null, .null => isTrue rfl
  | .bool a, .bool b =>
    if h : a = b then isTrue (by rw [h]) else isFalse (fun hh => h (Json.bool.inj hh))
  | .num a, .num b =>
    if h : a = b then isTrue (by rw [h]) else isFalse (fun hh => h (Json.num.inj hh))
  | .str a, .str b =>
    if h : a = b then isTrue (by rw [h]) else isFalse (fun hh => h (Json.str.inj hh))
  | .arr a, .arr b =>
    match jsonListDecEq a b with
    | isTrue h => isTrue (by rw [h])
    | isFalse h => isFalse (fun hh => h (Json.arr.inj hh))
  | .obj a, .obj b =>
    match jsonKVDecEq a b with
    | isTrue h => isTrue (by rw [h])
    | isFalse h => isFalse (fun hh => h (Json.obj.inj hh))
  | .null, .bool _ | .null, .num _ | .null, .str _ | .null, .arr _ | .null, .obj _
  | .bool _, .null | .bool _, .num _ | .bool _, .str _ | .bool _, .arr _ | .bool _, .obj _
  | .num _, .null | .num _, .bool _ | .num _, .str _ | .num _, .arr _ | .num _, .obj _
  | .str _, .null | .str _, .bool _ | .str _, .num _ | .str _, .arr _ | .str _, .obj _
  | .arr _, .null | .arr _, .bool _ | .arr _, .num _ | .arr _, .str _ | .arr _, .obj _
  | .obj _, .null | .obj _, .bool _ | .obj _, .num _ | .obj _, .str _ | .obj _, .arr _ =>
    isFalse (fun h => Json.noConfusion h)

def jsonListDecEq : (a b : List Json) → Decidable (a = b)
  | [], [] => isTrue rfl
  | [], _ :: _ => isFalse (fun h => List.noConfusion h)
  | _ :: _, [] => isFalse (fun h => List.noConfusion h)
  | x :: xs, y :: ys =>
    match Json.decEq x y with
    | isFalse h => isFalse (fun hh => h (List.cons.inj hh).1)
    | isTrue h1 =>
      match jsonListDecEq xs ys with
      | isTrue h2 => isTrue (by rw [h1, h2])
      | isFalse h2 => isFalse (fun hh => h2 (List.cons.inj hh).2)

def jsonKVDecEq : (a b : List (String × Json)) → Decidable (a = b)
  | [], [] => isTrue rfl
  | [], _ :: _ => isFalse (fun h => List.noConfusion h)
  | _ :: _, [] => isFalse (fun h => List.noConfusion h)
  | (k, v) :: xs, (k2, v2) :: ys =>
    if hk : k = k2 then
      match Json.decEq v v2 with
      | isFalse h => isFalse (by intro hh; injection hh with h1 _; injection h1; contradiction)
      | isTrue h1 =>
        match jsonKVDecEq xs ys with
        | isTrue h2 => isTrue (by rw [hk, h1, h2])
        | isFalse h2 => isFalse (fun hh => h2 (List.cons.inj hh).2)
    else isFalse (by intro hh; injection hh with h1 _; injection h1; contradiction)

end

instance : DecidableEq Json := Json.decEq

/-- Python truthiness of a JSON value: `None`, `False`, `0`, `""`, `[]` and
`{}` are falsy, everything else is truthy. -/
def Json.truthy : Json → Bool
  | Json.null => false
  | Json.bool b => b
  | Json.num n => n != 0
  | Json.str s => s ≠ ""
  | Json.arr xs => !xs.isEmpty
  | Json.obj kvs => !kvs.isEmpty

/-- Whether the value is Python `None`. -/
def Json.isNull : Json → Bool
  | Json.null => true
  | _ => false

/-- First-match lookup in an association list (Python dicts have unique keys,
so for parser-produced objects this is the dict lookup). -/
def objLookup : List (String × Json) → String → Option Json
  | [], _ => none
  | (k, v) :: rest, key => if k = key then some v else objLookup rest key

/-- Python `d[key] = v` on a dict: replace in place if the key exists,
otherwise append (insertion order preserved). -/
def objSet : List (String × Json) → String → Json → List (String × Json)
  | [], key, v => [(key, v)]
  | (k, w) :: rest, key, v =>
    if k = key then (k, v) :: rest else (k, w) :: objSet rest key v

/-- Python `x.get(key, default)`: `none` models the `AttributeError` raised
when `x` is not a dict. -/
def pyGet (j : Json) (key : String) (default : Json) : Option Json :=
  match j with
  | Json.obj kvs => some ((objLookup kvs key).getD default)
  | _ => none

/-- Python `x[key]` on a value known to be a dict; `none` models `KeyError`
(missing key) or `TypeError` (not a dict). -/
def pyIndex (j : Json) (key : String) : Option Json :=
  match j with
  | Json.obj kvs => objLookup kvs key
  | _ => none

/-- Python `dict.update(other)`: merge `other` into the receiver,
last-write-wins per key.  `none` models the raise when either side is not a
dict (the CPython corner where `other` is an iterable of pairs is not
modelled; the decoded payloads here are JSON objects). -/
def pyUpdate : Json → Json → Option Json
  | Json.obj a, Json.obj b => some (Json.obj (b.foldl (fun acc kv => objSet acc kv.1 kv.2) a))
  | _, _ => none

/-- Python `str(x)` coercion used only to require a `str`; `none` models the
`TypeError` from concatenating a non-string onto a string. -/
def asPyStr : Json → Option String
  | Json.str s => some s
  | _ => none

/-- Python `str.strip()` whitespace set (ASCII fragment). -/
def isPyWs (c : Char) : Bool :=
  c = ' ' || c = '\t' || c = '\n' || c = '\r' || c = '\x0b' || c = '\x0c'

/-- Python `s.strip()` on the character-list view of a string. -/
def pyStrip (s : List Char) : List Char :=
  ((s.dropWhile isPyWs).reverse.dropWhile isPyWs).reverse

/-- Python `s.split("event:")`: split on every non-overlapping occurrence of
the literal delimiter, scanning left to right.  The accumulator holds the
current chunk reversed. -/
def splitEvAux : List Char → List Char → List (List Char)
  | 'e' :: 'v' :: 'e' :: 'n' :: 't' :: ':' :: rest, acc => acc.reverse :: splitEvAux rest []
  | c :: rest, acc => splitEvAux rest (c :: acc)
  | [], acc => [acc.reverse]

def splitEvent (s : List Char) : List (List Char) := splitEvAux s []

/-- Python `s.split('\n', 1)`: `none` when the string has no newline (the
one-element result), otherwise the text before and after the first one. -/
def splitNlOnce : List Char → Option (List Char × List Char)
  | [] => none
  | '\n' :: rest => some ([], rest)
  | c :: rest => (splitNlOnce rest).map (fun p => (c :: p.1, p.2))

/-- Python `s.replace("data:", "", 1)`: remove the first occurrence of the
literal `data:`. -/
def replaceDataOnce : List Char → List Char
  | 'd' :: 'a' :: 't' :: 'a' :: ':' :: rest => rest
  | c :: rest => c :: replaceDataOnce rest
  | [] => []

/-- Python `sub in s` substring test. -/
def hasSub (needle : List Char) : List Char → Bool
  | [] => needle.isEmpty
  | s@(_ :: rest) => needle.isPrefixOf s || hasSub needle rest

/-- Python hashability of a JSON value (lists and dicts are unhashable and
raise `TypeError` when used as dict/Counter keys). -/
def Json.hashable : Json → Bool
  | Json.arr _ => false
  | Json.obj _ => false
  | _ => true

/-! ### Model of Python `json.loads` (integer-number fragment) -/

/-- Whitespace accepted by Python's JSON decoder. -/
def isJsonWs (c : Char) : Bool :=
  c = ' ' || c = '\t' || c = '\n' || c = '\r'

def skipJsonWs (s : List Char) : List Char := s.dropWhile isJsonWs

def hexVal (c : Char) : Option Nat :=
  if '0' ≤ c && c ≤ '9' then some (c.toNat - 48)
  else if 'a' ≤ c && c ≤ 'f' then some (c.toNat - 87)
  else if 'A' ≤ c && c ≤ 'F' then some (c.toNat - 55)
  else none

/-- Body of a JSON string literal after the opening quote: returns the
decoded characters and the input after the closing quote.  Escapes follow the
JSON grammar; unescaped control characters are rejected (strict mode).
Surrogate-pair recombination of `\u` escapes is not modelled. -/
def parseStrBody : List Char → Option (List Char × List Char)
  | [] => none
  | '"' :: rest => some ([], rest)
  | '\\' :: '"' :: r => (parseStrBody r).map (fun p => ('"' :: p.1, p.2))
  | '\\' :: '\\' :: r => (parseStrBody r).map (fun p => ('\\' :: p.1, p.2))
  | '\\' :: '/' :: r => (parseStrBody r).map (fun p => ('/' :: p.1, p.2))
  | '\\' :: 'b' :: r => (parseStrBody r).map (fun p => ('\x08' :: p.1, p.2))
  | '\\' :: 'f' :: r => (parseStrBody r).map (fun p => ('\x0c' :: p.1, p.2))
  | '\\' :: 'n' :: r => (parseStrBody r).map (fun p => ('\n' :: p.1, p.2))
  | '\\' :: 'r' :: r => (parseStrBody r).map (fun p => ('\r' :: p.1, p.2))
  | '\\' :: 't' :: r => (parseStrBody r).map (fun p => ('\t' :: p.1, p.2))
  | '\\' :: 'u' :: a :: b :: c :: d :: r =>
    match hexVal a, hexVal b, hexVal c, hexVal d with
    | some ha, some hb, some hc, some hd =>
      (parseStrBody r).map
        (fun p => (Char.ofNat (((ha * 16 + hb) * 16 + hc) * 16 + hd) :: p.1, p.2))
    | _, _, _, _ => none
  | '\\' :: _ => none
  | c :: rest =>
    if c.toNat < 32 then none
    else (parseStrBody rest).map (fun p => (c :: p.1, p.2))

def digitsToNat (ds : List Char) : Nat :=
  ds.foldl (fun n c => n * 10 + (c.toNat - 48)) 0

/-- JSON number at the head of the input.  Only the integer grammar
`-? (0 | [1-9][0-9]*)` is modelled; a following `.`/`e`/`E` (a float) is
rejected, a deliberate restriction of the embedding. -/
def parseNum (s : List Char) : Option (Json × List Char) :=
  let (neg, s1) := match s with
    | '-' :: r => (true, r)
    | _ => (false, s)
  match s1.head? with
  | none => none
  | some c =>
    if !c.isDigit then none
    else
      let ds := s1.takeWhile Char.isDigit
      let rest := s1.dropWhile Char.isDigit
      if ds.length > 1 && ds.head? = some '0' then none
      else
        match rest.head? with
        | some '.' => none
        | some 'e' => none
        | some 'E' => none
        | _ =>
          let n : Int := Int.ofNat (digitsToNat ds)
          some (Json.num (if neg then -n else n), rest)

mutual

/-- JSON value at the head of the input (no leading-whitespace skip, as in
CPython's scanner). -/
def parseValue : Nat → List Char → Option (Json × List Char)
  | 0, _ => none
  | fuel + 1, s =>
    match s with
    | 'n' :: 'u' :: 'l' :: 'l' :: rest => some (Json.null, rest)
    | 't' :: 'r' :: 'u' :: 'e' :: rest => some (Json.bool true, rest)
    | 'f' :: 'a' :: 'l' :: 's' :: 'e' :: rest => some (Json.bool false, rest)
    | '"' :: rest => (parseStrBody rest).map (fun p => (Json.str (String.mk p.1), p.2))
    | '[' :: rest =>
      (match skipJsonWs rest with
       | ']' :: r2 => some (Json.arr [], r2)
       | r1 => parseElems fuel r1 [])
    | '\x7b' :: rest =>
      (match skipJsonWs rest with
       | '\x7d' :: r2 => some (Json.obj [], r2)
       | r1 => parseMembers fuel r1 [])
    | _ => parseNum s

/-- Non-empty tail of a JSON array: value, then `,` or `]`. -/
def parseElems : Nat → List Char → List Json → Option (Json × List Char)
  | 0, _, _ => none
  | fuel + 1, s, acc => do
    let (v, rest) ← parseValue fuel s
    match skipJsonWs rest with
    | ',' :: r2 => parseElems fuel (skipJsonWs r2) (acc ++ [v])
    | ']' :: r2 => some (Json.arr (acc ++ [v]), r2)
    | _ => none

/-- Non-empty tail of a JSON object: `"key" : value`, then `,` or the closing
brace.  Duplicate keys overwrite in place, as in CPython. -/
def parseMembers : Nat → List Char → List (String × Json) → Option (Json × List Char)
  | 0, _, _ => none
  | fuel + 1, s, acc =>
    match s with
    | '"' :: rest => do
      let (kcs, r1) ← parseStrBody rest
      match skipJsonWs r1 with
      | ':' :: r3 => do
        let (v, r4) ← parseValue fuel (skipJsonWs r3)
        (match skipJsonWs r4 with
         | ',' :: r6 => parseMembers fuel (skipJsonWs r6) (objSet acc (String.mk kcs) v)
         | '\x7d' :: r6 => some (Json.obj (objSet acc (String.mk kcs) v), r6)
         | _ => none)
      | _ => none
    | _ => none

end

/-- Python `json.loads` on a string: decode exactly one JSON document,
allowing surrounding whitespace only; `none` models `JSONDecodeError` (and
the `TypeError` cases are handled at call sites). -/
def loadsChars (cs : List Char) : Option Json :=
  match parseValue (cs.length + 1) (skipJsonWs cs) with
  | some (v, rest) => if skipJsonWs rest = [] then some v else none
  | none => none

def Json.loads (s : String) : Option Json := loadsChars s.toList

/-! ### `parse_sse_response` (analyze_conversations.py, lines 8-66) -/

/-- One decoded stream event: `\x7b'type': event_type, 'data': data\x7d`. -/
structure StreamEvent where
  type : List Char
  data : Json
  deriving DecidableEq

/-- Accumulator of `parse_sse_response`: `full_text`, `usage`, `events`.
`usage` starts as the empty dict but is reassigned to whatever
`data.get('usage', \x7b\x7d)` returns, so it is an arbitrary JSON value. -/
structure SSEState where
  full_text : List Char
  usage : Json
  events : List StreamEvent
  deriving DecidableEq

def initSSE : SSEState := { full_text := [], usage := Json.obj [], events := [] }

/-- The per-event body of the loop once `json.loads` succeeded (lines 49-62).
The event is appended first; a raise in any later line of the `try` block is
caught by the bare `except`, leaving the state as already committed.  The
text branch and the usage branches are separate `if` statements in the
source, but their guards are mutually exclusive, so sequencing them is
exact. -/
def sseTryRest (st : SSEState) (event_type : List Char) (data : Json) : SSEState :=
  if event_type = "content_block_delta".toList then
    match (pyGet data "delta" (Json.obj [])).bind
        (fun d => (pyGet d "text" (Json.str "")).bind asPyStr) with
    | some t => { st with full_text := st.full_text ++ t.toList }
    | none => st
  else if event_type = "message_delta".toList then
    match pyGet data "usage" (Json.obj []) with
    | some u => { st with usage := u }
    | none => st
  else if event_type = "message_start".toList then
    match (pyGet data "message" (Json.obj [])).bind
        (fun m => pyGet m "usage" (Json.obj [])) with
    | some mu =>
      if mu.truthy then
        match pyUpdate st.usage mu with
        | some u => { st with usage := u }
        | none => st
      else st
    | none => st
  else st

/-- Full loop body: the event is appended first, then `sseTryRest` performs
the remaining lines of the `try` block. -/
def sseStep (st : SSEState) (event_type : List Char) (data : Json) : SSEState :=
  sseTryRest { st with events := st.events ++ [{ type := event_type, data := data }] }
    event_type data

/-- Lines 35-44: scan for the first position where the running brace count
returns to zero on a closing brace; `json_end` stays `0` when that never
happens. -/
def braceScan : List Char → Int → Nat → Nat
  | [], _, _ => 0
  | c :: rest, count, i =>
    if c = '\x7b' then braceScan rest (count + 1) (i + 1)
    else if c = '\x7d' then
      (if count - 1 = 0 then i + 1 else braceScan rest (count - 1) (i + 1))
    else braceScan rest count (i + 1)

def jsonEnd (s : List Char) : Nat := braceScan s 0 0

/-- One iteration of the `for part in parts` loop (lines 17-64). -/
def processPart (st : SSEState) (part : List Char) : SSEState :=
  let sp := pyStrip part
  if sp.isEmpty then st
  else
    match splitNlOnce sp with
    | none => st
    | some (line0, data_part) =>
      let event_type := pyStrip line0
      if !("data:".toList.isPrefixOf data_part) then st
      else
        let json_str := pyStrip (replaceDataOnce data_part)
        let json_end := jsonEnd json_str
        if json_end > 0 then
          match loadsChars (json_str.take json_end) with
          | some data => sseStep st event_type data
          | none => st
        else st

/-- `parse_sse_response` (lines 8-66): split on the literal `event:`, fold
the per-part handler, return `(full_text, usage, events)`. -/
def parse_sse_response (sse_text : List Char) : SSEState :=
  (splitEvent sse_text).foldl processPart initSSE

/-! ### Conversation correlator (analyze_conversations.py, lines 68-137) -/

/-- One entry of the `conversations` defaultdict.  The default entry is
`\x7b'request': None, 'response': None, 'timestamp': None\x7d`; the keys
`model`, `api_key`, `response_raw`, `streaming`, `response_text`, `usage`
and `parse_error` appear only once written, so the ones whose presence the
script tests are `Option`-valued.  `response` is written nowhere. -/
structure Conversation where
  request : Json := Json.null
  response : Json := Json.null
  timestamp : Json := Json.null
  model : Json := Json.null
  api_key : Json := Json.null
  response_raw : Option Json := none
  streaming : Option Json := none
  response_text : Option (List Char) := none
  usage : Option Json := none
  parse_error : Bool := false
  deriving DecidableEq

/-- The `conversations` mapping, in insertion order, keyed by the
`request_id` value. -/
abbrev ConvMap := List (Json × Conversation)

def convLookup : ConvMap → Json → Option Conversation
  | [], _ => none
  | (k, c) :: rest, key => if k = key then some c else convLookup rest key

/-- `conversations[request_id]` access followed by mutation: the defaultdict
creates the default entry on first access, later accesses mutate in place. -/
def convUpsert (m : ConvMap) (key : Json) (f : Conversation → Conversation) : ConvMap :=
  match m with
  | [] => [(key, f {})]
  | (k, c) :: rest =>
    if k = key then (k, f c) :: rest else (k, c) :: convUpsert rest key f

/-- Lines 94-102: on `request_body`, decode `fields['body']` and set the four
request-side keys; any raise (missing `body`, non-string `body`, decode
failure) is swallowed without touching the mapping. -/
def handleRequest (lkvs skvs fkvs : List (String × Json)) (m : ConvMap) (rid : Json) :
    ConvMap :=
  match objLookup fkvs "body" with
  | some (Json.str btxt) =>
    match Json.loads btxt with
    | some body =>
      convUpsert m rid (fun c =>
        { c with request := body,
                 model := (objLookup skvs "model").getD Json.null,
                 api_key := (objLookup skvs "api_key_name").getD Json.null,
                 timestamp := (objLookup lkvs "timestamp").getD Json.null })
    | none => m
  | _ => m

/-- Python iteration over a JSON value: lists yield elements, dicts yield
their keys, strings yield one-character strings; numbers, booleans and
`None` raise. -/
def iterItems : Json → Option (List Json)
  | Json.arr xs => some xs
  | Json.obj kvs => some (kvs.map (fun kv => Json.str kv.1))
  | Json.str s => some (s.toList.map (fun ch => Json.str (String.mk [ch])))
  | _ => none

/-- Lines 122-125: concatenate `content['text']` over the iterated items
that are dicts carrying a `text` key; a non-string `text` value raises on
`+=`. -/
def contentTextFold : List Json → List Char → Option (List Char)
  | [], acc => some acc
  | item :: rest, acc =>
    match item with
    | Json.obj kvs =>
      match objLookup kvs "text" with
      | some (Json.str t) => contentTextFold rest (acc ++ t.toList)
      | some _ => none
      | none => contentTextFold rest acc
    | _ => contentTextFold rest acc

/-- Python `needle in j`: key test on dicts, membership on lists, substring
test on strings; `TypeError` otherwise. -/
def pyContains (needle : String) (j : Json) : Option Bool :=
  match j with
  | Json.obj kvs => some (kvs.any (fun kv => kv.1 == needle))
  | Json.arr xs => some (xs.any (fun x => x == Json.str needle))
  | Json.str s => some (hasSub needle.toList s.toList)
  | _ => none

/-- Lines 121-125: `text` assembled from a decoded non-streaming response
document.  `none` models a raise anywhere in the `if`/`for` block. -/
def extractText (resp : Json) : Option (List Char) := do
  let b ← pyContains "content" resp
  if b then
    match resp with
    | Json.obj kvs =>
      match objLookup kvs "content" with
      | some cv =>
        if cv.truthy then do
          let items ← iterItems cv
          contentTextFold items []
        else some []
      | none => none
    | _ => none
  else some []

/-- Lines 104-130: the `response_body` branch.  Each committed write stays
even when a later line of the `try` block raises; the bare `except` then
records `parse_error` on the same entry. -/
def handleResponseBody (fkvs : List (String × Json)) (c : Conversation) : Conversation :=
  match objLookup fkvs "body" with
  | none => { c with parse_error := true }
  | some body_text =>
    let streamingVal := (objLookup fkvs "streaming").getD (Json.bool false)
    let c := { c with response_raw := some body_text, streaming := some streamingVal }
    if streamingVal.truthy then
      match body_text with
      | Json.str s =>
        let st := parse_sse_response s.toList
        { c with response_text := some st.full_text, usage := some st.usage }
      | _ => { c with parse_error := true }
    else
      match body_text with
      | Json.str s =>
        match Json.loads s with
        | none => { c with parse_error := true }
        | some resp_json =>
          match extractText resp_json with
          | none => { c with parse_error := true }
          | some text =>
            let c := { c with response_text := some text }
            match pyGet resp_json "usage" (Json.obj []) with
            | none => { c with parse_error := true }
            | some u => { c with usage := some u }
      | _ => { c with parse_error := true }

/-- Lines 80-130: dispatch one decoded log record.  Records that are not
dicts, or whose `fields`/`span` values are not dicts, do not reach the two
handlers (the script skips the former and would raise uncaught on the
latter; those raising corners are outside the model). -/
def processRecord (m : ConvMap) (log : Json) : ConvMap :=
  match log with
  | Json.obj lkvs =>
    match objLookup lkvs "fields" with
    | none => m
    | some (Json.obj fkvs) =>
      let event_type := (objLookup fkvs "event_type").getD Json.null
      if event_type.truthy then
        match (objLookup lkvs "span").getD (Json.obj []) with
        | Json.obj skvs =>
          let rid := (objLookup skvs "request_id").getD Json.null
          if rid.truthy then
            if event_type = Json.str "request_body" then handleRequest lkvs skvs fkvs m rid
            else if event_type = Json.str "response_body" then
              convUpsert m rid (handleResponseBody fkvs)
            else m
          else m
        | _ => m
      else m
    | some _ => m
  | _ => m

/-- Lines 78-81: strip and JSON-decode one input line; undecodable lines are
skipped. -/
def processLine (m : ConvMap) (line : List Char) : ConvMap :=
  match loadsChars (pyStrip line) with
  | some log => processRecord m log
  | none => m

/-- First pass of `analyze_conversations` (lines 78-133). -/
def analyzeConvs (lines : List (List Char)) : ConvMap :=
  lines.foldl processLine []

/-- Lines 136-137: keep entries with a non-`None` request and an assigned
`response_text`. -/
def completeConversations (m : ConvMap) : ConvMap :=
  m.filter (fun kv => !kv.2.request.isNull && kv.2.response_text.isSome)

/-- `conv.get('usage', \x7b\x7d).get(k, 0)` as an integer; `none` models the
raise when `usage` is a non-dict or the field value is not summable with an
int (Python bools are ints). -/
def usageFieldVal (c : Conversation) (k : String) : Option Int :=
  match c.usage.getD (Json.obj []) with
  | Json.obj kvs =>
    match (objLookup kvs k).getD (Json.num 0) with
    | Json.num n => some n
    | Json.bool b => some (if b then 1 else 0)
    | _ => none
  | _ => none

/-- Lines 267-270: the four `sum(...)` aggregates over the complete
conversations. -/
def sumUsageField (cs : List Conversation) (k : String) : Option Int :=
  (cs.mapM (fun c => usageFieldVal c k)).map (fun xs => xs.foldl (· + ·) 0)

/-- Lines 280-283: the cache hit percentage, computed only when
`total_cache_read > 0`; the denominator is `total_input or 1`.  The outer
`Option` models a raise while summing; the inner one is the `> 0` guard.
Exact rational arithmetic stands in for Python float division. -/
def cacheHitPct (cs : List Conversation) : Option (Option ℚ) := do
  let ti ← sumUsageField cs "input_tokens"
  let tcr ← sumUsageField cs "cache_read_input_tokens"
  pure (if 0 < tcr then
          some ((tcr : ℚ) / (if ti = 0 then (1 : ℚ) else (ti : ℚ)) * 100)
        else none)

/-! ### `analyze_detailed_logs` (log_analysis_report.py) -/

/-- One `conversations[request_id]` entry of the report script (line 53):
always written as a whole. -/
structure ReportConv where
  model : Json
  api_key : Json
  request : Json
  timestamp : Json
  deriving DecidableEq

/-- `Counter` bump: `counter[k] += 1`. -/
def bumpCount : List (Json × Nat) → Json → List (Json × Nat)
  | [], k => [(k, 1)]
  | (k2, n) :: rest, k =>
    if k2 = k then (k2, n + 1) :: rest else (k2, n) :: bumpCount rest k

def countOf : List (Json × Nat) → Json → Nat
  | [], _ => 0
  | (k2, n) :: rest, k => if k2 = k then n else countOf rest k

/-- `conversations[request_id] = \x7b...\x7d`: replace in place or append. -/
def rconvSet : List (Json × ReportConv) → Json → ReportConv → List (Json × ReportConv)
  | [], k, v => [(k, v)]
  | (k2, c) :: rest, k, v =>
    if k2 = k then (k2, v) :: rest else (k2, c) :: rconvSet rest k v

/-- State built by the first pass of `analyze_detailed_logs` (lines 11-19).
The `interaction`/ratio part is computed afterwards over `conversations`. -/
structure RState where
  total_requests : Nat := 0
  models : List (Json × Nat) := []
  api_keys : List (Json × Nat) := []
  error_log : List (Json × Json × Json) := []
  error_counts : List (Json × Nat) := []
  conversations : List (Json × ReportConv) := []
  request_bodies : List (Json × Json × Json) := []
  deriving DecidableEq

/-- Lines 45-66: the `try` block of the `request_body` branch.  Each
statement's effect commits before the next can raise; the bare `except`
swallows the rest (so an unhashable `model` leaves every counter untouched,
while an unhashable `api_key` leaves `models` already bumped). -/
def reportReqTry (lkvs skvs fkvs : List (String × Json)) (rid : Json) (s : RState) :
    RState :=
  match objLookup fkvs "body" with
  | some (Json.str btxt) =>
    match Json.loads btxt with
    | some body =>
      match body with
      | Json.obj bkvs =>
        let model := (objLookup bkvs "model").getD (Json.str "unknown")
        if model.hashable then
          let s := { s with models := bumpCount s.models model }
          let api_key := (objLookup skvs "api_key_name").getD (Json.str "unknown")
          if api_key.hashable then
            let s := { s with api_keys := bumpCount s.api_keys api_key }
            if rid.hashable then
              { s with
                conversations := rconvSet s.conversations rid
                  { model := model, api_key := api_key, request := body,
                    timestamp := (objLookup lkvs "timestamp").getD Json.null },
                request_bodies := s.request_bodies ++ [(rid, model, body)] }
            else s
          else s
        else s
      | _ => s
    | none => s
  | _ => s

/-- Lines 31-38: the `level == 'ERROR'` branch.  `none` models an uncaught
raise (`.get` on a non-dict `fields`, unhashable `Counter` key). -/
def reportErrStep (lkvs : List (String × Json)) (s : RState) : Option RState :=
  if (objLookup lkvs "level").getD Json.null = Json.str "ERROR" then
    match (objLookup lkvs "fields").getD (Json.obj []) with
    | Json.obj fkvs =>
      let msg := (objLookup fkvs "message").getD (Json.str "")
      if msg.hashable then
        some { s with
          error_log := s.error_log ++
            [((objLookup lkvs "timestamp").getD Json.null, msg,
              (objLookup lkvs "target").getD Json.null)],
          error_counts := bumpCount s.error_counts msg }
      else none
    | _ => none
  else some s

/-- Lines 41-66: the `request_body` branch dispatch.  `none` models the
uncaught raise when `fields` or `span` is not a dict. -/
def reportReqStep (lkvs : List (String × Json)) (s : RState) : Option RState :=
  match (objLookup lkvs "fields").getD (Json.obj []) with
  | Json.obj fkvs =>
    if (objLookup fkvs "event_type").getD Json.null = Json.str "request_body" then
      match (objLookup lkvs "span").getD (Json.obj []) with
      | Json.obj skvs =>
        some (reportReqTry lkvs skvs fkvs ((objLookup skvs "request_id").getD Json.null)
          { s with total_requests := s.total_requests + 1 })
      | _ => none
    else some s
  | _ => none

/-- Lines 27-66: one decoded record of the report script: the error side
channel, then the `request_body` branch.  Non-dict records raise on
`log.get` and abort the run. -/
def reportProcessRecord (s : RState) (log : Json) : Option RState :=
  match log with
  | Json.obj lkvs => (reportErrStep lkvs s).bind (reportReqStep lkvs)
  | _ => none

def reportProcessLine (s : RState) (line : List Char) : Option RState :=
  match loadsChars (pyStrip line) with
  | some log => reportProcessRecord s log
  | none => some s

/-- First pass of `analyze_detailed_logs` (lines 25-69). -/
def reportFirstPass (lines : List (List Char)) : Option RState :=
  lines.foldlM reportProcessLine {}

/-- Counts accumulated by the interaction-pattern loop (lines 177-208).  The
`interaction_types` Counter has exactly three possible keys, modelled as the
three `interaction_*` fields. -/
structure AggStats where
  streaming_count : Nat := 0
  has_tools : Nat := 0
  has_system_prompt : Nat := 0
  has_cache : Nat := 0
  interaction_tools : Nat := 0
  interaction_cache : Nat := 0
  interaction_structured : Nat := 0
  deriving DecidableEq

/-- Lines 186-194: the three truthiness counters (`stream`, `tools`,
`system`), which never raise once the request is a dict. -/
def aggCountersStep (rkvs : List (String × Json)) (st : AggStats) : AggStats :=
  let st := if ((objLookup rkvs "stream").getD Json.null).truthy then
      { st with streaming_count := st.streaming_count + 1 } else st
  let st := if ((objLookup rkvs "tools").getD Json.null).truthy then
      { st with has_tools := st.has_tools + 1,
                interaction_tools := st.interaction_tools + 1 } else st
  if ((objLookup rkvs "system").getD Json.null).truthy then
    { st with has_system_prompt := st.has_system_prompt + 1 } else st

/-- Lines 197-201: the cache check; `none` models the raise from iterating a
truthy but non-iterable `system` value. -/
def aggCacheStep (rkvs : List (String × Json)) (st : AggStats) : Option AggStats :=
  let sysv := (objLookup rkvs "system").getD Json.null
  if sysv.truthy then
    (iterItems sysv).map (fun items =>
      if items.any (fun it =>
          match it with
          | Json.obj skvs => ((objLookup skvs "cache_control").getD Json.null).truthy
          | _ => false) then
        { st with has_cache := st.has_cache + 1,
                  interaction_cache := st.interaction_cache + 1 }
      else st)
  else some st

/-- Lines 205-208: the structured-output check; `none` models the raise from
chained `.get` through a non-dict `output_config`/`format`. -/
def aggOutputStep (rkvs : List (String × Json)) (st : AggStats) : Option AggStats :=
  if rkvs.any (fun kv => kv.1 == "output_config") then
    match objLookup rkvs "output_config" with
    | some (Json.obj okvs) =>
      match (objLookup okvs "format").getD (Json.obj []) with
      | Json.obj fmkvs =>
        some (if (objLookup fmkvs "type").getD Json.null = Json.str "json_schema" then
            { st with interaction_structured := st.interaction_structured + 1 }
          else st)
      | _ => none
    | _ => none
  else some st

/-- Lines 183-208: loop body for one conversation.  `none` models an
uncaught raise: `req.get` on a non-dict request, iterating a non-iterable
`system`, or chained `.get` through a non-dict `output_config`/`format`. -/
def aggStepReport (st : AggStats) (conv : ReportConv) : Option AggStats :=
  match conv.request with
  | Json.obj rkvs => (aggCacheStep rkvs (aggCountersStep rkvs st)).bind (aggOutputStep rkvs)
  | _ => none

/-- The interaction report (lines 177-214): the four counts and the four
percentages printed at lines 211-214, each dividing by
`len(conversations)`.  `none` models an uncaught raise, in particular the
`ZeroDivisionError` when `conversations` is empty.  Exact rational
arithmetic stands in for Python float division. -/
structure AggReport where
  counts : AggStats
  streamingPct : ℚ
  toolsPct : ℚ
  systemPct : ℚ
  cachePct : ℚ
  deriving DecidableEq

def aggregateReport (convs : List (Json × ReportConv)) : Option AggReport := do
  let st ← convs.foldlM (fun st kv => aggStepReport st kv.2) {}
  if convs.length = 0 then none
  else
    some { counts := st,
           streamingPct := (st.streaming_count : ℚ) / (convs.length : ℚ) * 100,
           toolsPct := (st.has_tools : ℚ) / (convs.length : ℚ) * 100,
           systemPct := (st.has_system_prompt : ℚ) / (convs.length : ℚ) * 100,
           cachePct := (st.has_cache : ℚ) / (convs.length : ℚ) * 100 }

/-! ### Derived notions used by the stated properties -/

/-- The text a single decoded event contributes to `full_text`
(lines 52-54): the `delta.text` string when it extracts cleanly, nothing
otherwise. -/
def deltaTextOf (d : Json) : List Char :=
  match (pyGet d "delta" (Json.obj [])).bind
      (fun dd => (pyGet dd "text" (Json.str "")).bind asPyStr) with
  | some t => t.toList
  | none => []

/-- Concatenation, in encounter order, of the `delta.text` fragments of the
`content_block_delta` events of a decoded event sequence. -/
def deltaConcat (evs : List StreamEvent) : List Char :=
  (evs.map (fun e =>
    if e.type = "content_block_delta".toList then deltaTextOf e.data else [])).flatten

/-- A block (one piece of the `event:` split) the decoder skips: its data
section is missing (`Option.isNone` on the single-split), the `data:` field
prefix is absent, its brace matching never balances (`json_end = 0`), or the
extracted prefix fails to parse as JSON. -/
def badPartB (p : List Char) : Bool :=
  match splitNlOnce (pyStrip p) with
  | none => true
  | some (_, dp) =>
    if !("data:".toList.isPrefixOf dp) then true
    else
      let js := pyStrip (replaceDataOnce dp)
      let je := jsonEnd js
      if je = 0 then true
      else (loadsChars (js.take je)).isNone

/-- The stream path of the Response Interpreter in isolation: fold the
per-event handler over an already decoded event sequence. -/
def foldEvents (st : SSEState) (evs : List StreamEvent) : SSEState :=
  evs.foldl (fun s e => sseStep s e.type e.data) st

/-- Shape of a decoded log record that takes the `request_body` branch of
`analyze_conversations` and decodes its body. -/
abbrev reqRecordParts (lkvs fkvs skvs : List (String × Json)) (rid : Json) (btxt : String)
    (body : Json) : Prop :=
  objLookup lkvs "fields" = some (Json.obj fkvs) ∧
  (objLookup fkvs "event_type").getD Json.null = Json.str "request_body" ∧
  objLookup lkvs "span" = some (Json.obj skvs) ∧
  (objLookup skvs "request_id").getD Json.null = rid ∧
  rid.truthy = true ∧
  objLookup fkvs "body" = some (Json.str btxt) ∧
  Json.loads btxt = some body

/-- Shape of a decoded log record that takes the `response_body` branch of
`analyze_conversations`. -/
abbrev respRecordParts (lkvs fkvs skvs : List (String × Json)) (rid : Json) : Prop :=
  objLookup lkvs "fields" = some (Json.obj fkvs) ∧
  (objLookup fkvs "event_type").getD Json.null = Json.str "response_body" ∧
  objLookup lkvs "span" = some (Json.obj skvs) ∧
  (objLookup skvs "request_id").getD Json.null = rid ∧
  rid.truthy = true

/-- Shape of a decoded record that completes the `request_body` branch of
the report script without raising and without the `except` firing. -/
abbrev reportReqRecordParts (lkvs fkvs skvs bkvs : List (String × Json)) (rid : Json)
    (btxt : String) : Prop :=
  (objLookup lkvs "level").getD Json.null ≠ Json.str "ERROR" ∧
  objLookup lkvs "fields" = some (Json.obj fkvs) ∧
  (objLookup fkvs "event_type").getD Json.null = Json.str "request_body" ∧
  objLookup lkvs "span" = some (Json.obj skvs) ∧
  objLookup fkvs "body" = some (Json.str btxt) ∧
  Json.loads btxt = some (Json.obj bkvs) ∧
  ((objLookup bkvs "model").getD (Json.str "unknown")).hashable = true ∧
  ((objLookup skvs "api_key_name").getD (Json.str "unknown")).hashable = true ∧
  (objLookup skvs "request_id").getD Json.null = rid ∧
  rid.hashable = true

/-- The model value the `try` block of the report script's `request_body`
branch bumps into the model histogram: defined exactly when the body
decodes to a dict and the model value is hashable. -/
def bodyModelKey (fkvs : List (String × Json)) : Option Json :=
  match objLookup fkvs "body" with
  | some (Json.str btxt) =>
    match Json.loads btxt with
    | some (Json.obj bkvs) =>
      let model := (objLookup bkvs "model").getD (Json.str "unknown")
      if model.hashable then some model else none
    | _ => none
  | _ => none

/-- The API-key value the same `try` block bumps into the API-key histogram
(reached only after the model bump succeeded). -/
def tryApiKey (fkvs skvs : List (String × Json)) : Option Json :=
  match objLookup fkvs "body" with
  | some (Json.str btxt) =>
    match Json.loads btxt with
    | some (Json.obj bkvs) =>
      if ((objLookup bkvs "model").getD (Json.str "unknown")).hashable then
        (let ak := (objLookup skvs "api_key_name").getD (Json.str "unknown")
         if ak.hashable then some ak else none)
      else none
    | _ => none
  | _ => none

/-- The model-histogram key a single decoded record of the report script
bumps, following the amended reading of the histogram semantics: one bump
per `request_body` record whose body decodes to a dict with a hashable
model value. -/
def recordModelKey (log : Json) : Option Json :=
  match log with
  | Json.obj lkvs =>
    match (objLookup lkvs "fields").getD (Json.obj []) with
    | Json.obj fkvs =>
      if (objLookup fkvs "event_type").getD Json.null = Json.str "request_body" then
        bodyModelKey fkvs
      else none
    | _ => none
  | _ => none

/-- The API-key-histogram key a single decoded record bumps, if any. -/
def recordApiKey (log : Json) : Option Json :=
  match log with
  | Json.obj lkvs =>
    match (objLookup lkvs "fields").getD (Json.obj []) with
    | Json.obj fkvs =>
      if (objLookup fkvs "event_type").getD Json.null = Json.str "request_body" then
        match (objLookup lkvs "span").getD (Json.obj []) with
        | Json.obj skvs => tryApiKey fkvs skvs
        | _ => none
      else none
    | _ => none
  | _ => none

/-- The API-key value a raw input line bumps, if any. -/
def lineApiKey (line : List Char) : Option Json :=
  (loadsChars (pyStrip line)).bind recordApiKey

/-- The model key a raw input line of the report script bumps, if any. -/
def lineModelKey (line : List Char) : Option Json :=
  (loadsChars (pyStrip line)).bind recordModelKey

/-- A request body whose optional fields the interaction loop of the report
script can read without raising: truthy `system` values must be iterable,
and a present `output_config` must be a dict whose `format` entry (when
present) is a dict. -/
def reqAggSafe (j : Json) : Bool :=
  match j with
  | Json.obj rkvs =>
    (let sysv := (objLookup rkvs "system").getD Json.null
     !sysv.truthy || (iterItems sysv).isSome) &&
    (match objLookup rkvs "output_config" with
     | none => true
     | some (Json.obj okvs) =>
       (match (objLookup okvs "format").getD (Json.obj []) with
        | Json.obj _ => true
        | _ => false)
     | some _ => false)
  | _ => false

/-! ### Concrete inputs for the counterexamples and witnesses -/

/-- Streaming body: a `message_start` usage payload (`input_tokens`,
`output_tokens`) followed by a `message_delta` usage payload carrying only
`output_tokens`. -/
def c1Body : List Char :=
  ("event: message_start\ndata: \x7b\"message\":\x7b\"usage\":\x7b\"input_tokens\":5,\"output_tokens\":1\x7d\x7d\x7d\n\nevent: message_delta\ndata: \x7b\"usage\":\x7b\"output_tokens\":3\x7d\x7d").toList

/-- Streaming body whose single block's data section is one complete JSON
object — containing a literal closing brace inside a string — followed by
trailing bytes. -/
def c2Body : List Char :=
  ("event: content_block_delta\ndata: \x7b\"delta\":\x7b\"text\":\"\x7d\"\x7d\x7dtrailing").toList

/-- The complete JSON object that opens the data section of `c2Body`. -/
def c2DataObj : String := "\x7b\"delta\":\x7b\"text\":\"\x7d\"\x7d\x7d"

/-- Streaming body with one `content_block_delta` event whose text fragment
contains the literal characters `event:`. -/
def c4Body : List Char :=
  ("event: content_block_delta\ndata: \x7b\"delta\":\x7b\"text\":\"event:x\"\x7d\x7d").toList

/-- A well-formed `request_body` log line for request id `r1`. -/
def reqLineR1 : List Char :=
  ("\x7b\"fields\":\x7b\"event_type\":\"request_body\",\"body\":\"\x7b\\\"model\\\":\\\"m1\\\",\\\"stream\\\":false\x7d\"\x7d,\"span\":\x7b\"request_id\":\"r1\",\"model\":\"m1\"\x7d\x7d").toList

/-- A `response_body` log line for `r1` whose non-streaming body is not
valid JSON. -/
def badRespLineR1 : List Char :=
  ("\x7b\"fields\":\x7b\"event_type\":\"response_body\",\"body\":\"not json\"\x7d,\"span\":\x7b\"request_id\":\"r1\"\x7d\x7d").toList

/-- A block piece whose braces never balance. -/
def c6BadBlock : List Char := (" foo\ndata: \x7bbroken").toList

/-- Two good block pieces (as produced by the `event:` split). -/
def c6GoodBlock1 : List Char :=
  (" content_block_delta\ndata: \x7b\"delta\":\x7b\"text\":\"A\"\x7d\x7d\n").toList

def c6GoodBlock2 : List Char :=
  (" message_delta\ndata: \x7b\"usage\":\x7b\"output_tokens\":7\x7d\x7d").toList

/-- One complete conversation whose usage carries cache reads but no
`input_tokens` (so `total_input = 0`). -/
def c7cs : List Conversation :=
  [{ request := Json.obj [("model", Json.str "m1")],
     response_text := some "ok".toList,
     usage := some (Json.obj [("cache_read_input_tokens", Json.num 5),
                              ("output_tokens", Json.num 1)]) }]

/-- Request-record pieces used by the order-independence and
last-write-wins witnesses. -/
def wReqFkvs : List (String × Json) :=
  [("event_type", Json.str "request_body"),
   ("body", Json.str "\x7b\"model\":\"m1\",\"stream\":true\x7d")]

def wReqFkvs2 : List (String × Json) :=
  [("event_type", Json.str "request_body"),
   ("body", Json.str "\x7b\"model\":\"m2\"\x7d")]

def wSkvs : List (String × Json) :=
  [("request_id", Json.str "r1"), ("model", Json.str "m1"),
   ("api_key_name", Json.str "k1")]

def wSkvs2 : List (String × Json) :=
  [("request_id", Json.str "r1"), ("model", Json.str "m2"),
   ("api_key_name", Json.str "k2")]

def wRespFkvs : List (String × Json) :=
  [("event_type", Json.str "response_body"),
   ("body", Json.str "\x7b\"content\":[\x7b\"text\":\"hi\"\x7d],\"usage\":\x7b\"input_tokens\":5\x7d\x7d")]

def wReqLkvs : List (String × Json) :=
  [("timestamp", Json.str "t1"), ("fields", Json.obj wReqFkvs), ("span", Json.obj wSkvs)]

def wReqLkvs2 : List (String × Json) :=
  [("timestamp", Json.str "t2"), ("fields", Json.obj wReqFkvs2), ("span", Json.obj wSkvs2)]

def wRespLkvs : List (String × Json) :=
  [("timestamp", Json.str "t3"), ("fields", Json.obj wRespFkvs), ("span", Json.obj wSkvs)]

/-- A `request_body` line whose body decodes (model `m1`, API key `k1`). -/
def c9ReqLine : List Char :=
  ("\x7b\"fields\":\x7b\"event_type\":\"request_body\",\"body\":\"\x7b\\\"model\\\":\\\"m1\\\"\x7d\"\x7d,\"span\":\x7b\"request_id\":\"r1\",\"api_key_name\":\"k1\"\x7d\x7d").toList

/-- A `request_body` line whose body is not valid JSON. -/
def c9BadBodyLine : List Char :=
  ("\x7b\"fields\":\x7b\"event_type\":\"request_body\",\"body\":\"oops\"\x7d,\"span\":\x7b\"request_id\":\"r2\"\x7d\x7d").toList

/-- The state the report script's first pass reaches after one `wReqLkvs`
record, used by the last-write-wins witness. -/
def wRState1 : RState :=
  { total_requests := 1,
    models := [(Json.str "m1", 1)],
    api_keys := [(Json.str "k1", 1)],
    conversations := [(Json.str "r1",
      { model := Json.str "m1", api_key := Json.str "k1",
        request := Json.obj [("model", Json.str "m1"), ("stream", Json.bool true)],
        timestamp := Json.str "t1" })],
    request_bodies := [(Json.str "r1", Json.str "m1",
      Json.obj [("model", Json.str "m1"), ("stream", Json.bool true)])] }

/-- The state the report script's first pass reaches on
`[c9ReqLine, c9ReqLine, c9BadBodyLine]`, used by the histogram witness. -/
def c9WitState : RState :=
  { total_requests := 3,
    models := [(Json.str "m1", 2)],
    api_keys := [(Json.str "k1", 2)],
    conversations := [(Json.str "r1",
      { model := Json.str "m1", api_key := Json.str "k1",
        request := Json.obj [("model", Json.str "m1")], timestamp := Json.null })],
    request_bodies := [(Json.str "r1", Json.str "m1", Json.obj [("model", Json.str "m1")]),
      (Json.str "r1", Json.str "m1", Json.obj [("model", Json.str "m1")])] }

/-! ### Structural lemmas about the stream decoder -/

theorem sseTryRest_events (st : SSEState) (ty : List Char) (d : Json) :
    (sseTryRest st ty d).events = st.events := by
  unfold sseTryRest
  repeat' split
  all_goals rfl

theorem sseStep_events (st : SSEState) (ty : List Char) (d : Json) :
    (sseStep st ty d).events = st.events ++ [{ type := ty, data := d }] := by
  unfold sseStep
  rw [sseTryRest_events]

theorem sseTryRest_full_text (st : SSEState) (ty : List Char) (d : Json) :
    (sseTryRest st ty d).full_text =
      st.full_text ++ (if ty = "content_block_delta".toList then deltaTextOf d else []) := by
  unfold sseTryRest deltaTextOf
  repeat' split
  all_goals simp_all

theorem sseStep_full_text (st : SSEState) (ty : List Char) (d : Json) :
    (sseStep st ty d).full_text =
      st.full_text ++ (if ty = "content_block_delta".toList then deltaTextOf d else []) := by
  unfold sseStep
  rw [sseTryRest_full_text]

theorem sseStep_usage_other (st : SSEState) (ty : List Char) (d : Json)
    (h1 : ty ≠ "message_delta".toList) (h2 : ty ≠ "message_start".toList) :
    (sseStep st ty d).usage = st.usage := by
  unfold sseStep sseTryRest
  repeat' split
  all_goals simp_all

theorem sseStep_usage_delta (st : SSEState) (kvs : List (String × Json)) (u : Json)
    (hu : objLookup kvs "usage" = some u) :
    (sseStep st "message_delta".toList (Json.obj kvs)).usage = u := by
  unfold sseStep sseTryRest
  repeat' split
  all_goals simp_all [pyGet]

theorem processPart_cases (st : SSEState) (p : List Char) :
    processPart st p = st ∨ ∃ ty d, processPart st p = sseStep st ty d := by
  unfold processPart
  dsimp only
  repeat' split
  all_goals (first | exact Or.inl rfl | (right; exact ⟨_, _, rfl⟩))

theorem deltaConcat_append (a b : List StreamEvent) :
    deltaConcat (a ++ b) = deltaConcat a ++ deltaConcat b := by
  unfold deltaConcat
  simp

theorem foldParts_text_inv (parts : List (List Char)) (st : SSEState)
    (h : st.full_text = deltaConcat st.events) :
    (parts.foldl processPart st).full_text = deltaConcat (parts.foldl processPart st).events := by
  induction parts generalizing st with
  | nil => exact h
  | cons p rest ih =>
    simp only [List.foldl_cons]
    apply ih
    rcases processPart_cases st p with hcase | ⟨ty, d, hcase⟩
    · rw [hcase]; exact h
    · rw [hcase, sseStep_full_text, sseStep_events, h, deltaConcat_append]
      unfold deltaConcat
      simp

theorem processPart_badPart (st : SSEState) (p : List Char) (h : badPartB p = true) :
    processPart st p = st := by
  unfold badPartB at h
  unfold processPart
  dsimp only
  split at h
  case h_1 heq =>
    by_cases hemp : (pyStrip p).isEmpty <;> simp [hemp, heq]
  case h_2 l0 dp heq =>
    have hemp : (pyStrip p).isEmpty = false := by
      rcases hx : pyStrip p with _ | ⟨c, cs⟩
      · rw [hx] at heq; exact absurd heq (by simp [splitNlOnce])
      · rfl
    split at h
    case isTrue hpre =>
      rw [Bool.not_eq_true'] at hpre
      rw [if_neg (by simp [hemp]), if_pos (by rw [hpre]; decide)]
    case isFalse hpre =>
      simp only [Bool.not_eq_true, Bool.not_eq_false'] at hpre
      dsimp only at h
      split at h
      case isTrue hje =>
        rw [if_neg (by simp [hemp]), if_neg (by rw [hpre]; decide), if_neg (by simp [hje])]
      case isFalse hje =>
        rw [Option.isNone_iff_eq_none] at h
        rw [if_neg (by simp [hemp]), if_neg (by rw [hpre]; decide),
          if_pos (Nat.pos_of_ne_zero hje), h]

theorem foldEvents_usage_frozen (evs : List StreamEvent) (st : SSEState)
    (h : ∀ e ∈ evs, e.type ≠ "message_delta".toList ∧ e.type ≠ "message_start".toList) :
    (foldEvents st evs).usage = st.usage := by
  induction evs generalizing st with
  | nil => rfl
  | cons e rest ih =>
    have he := h e (by simp)
    have hstep : foldEvents st (e :: rest) = foldEvents (sseStep st e.type e.data) rest := rfl
    rw [hstep, ih _ (fun x hx => h x (by simp [hx])),
      sseStep_usage_other st e.type e.data he.1 he.2]

/-! ### C1 -/

/-- C1 counterexample: in the decoded stream `c1Body`, a `message_start`
usage payload carrying `input_tokens` and `output_tokens` is followed by a
`message_delta` usage payload carrying only `output_tokens`; the resulting
usage is exactly the `message_delta` payload and the `input_tokens` field
present only in `message_start` is gone, contradicting the claim that
fields present solely in `message_start` persist. -/
theorem c1_message_start_fields_dropped :
    (parse_sse_response c1Body).events =
      [{ type := "message_start".toList,
         data := Json.obj [("message", Json.obj [("usage",
           Json.obj [("input_tokens", Json.num 5), ("output_tokens", Json.num 1)])])] },
       { type := "message_delta".toList,
         data := Json.obj [("usage", Json.obj [("output_tokens", Json.num 3)])] }] ∧
    (parse_sse_response c1Body).usage = Json.obj [("output_tokens", Json.num 3)] ∧
    pyIndex (parse_sse_response c1Body).usage "input_tokens" = none := by
  decide

/-- C1 (amended): a `message_delta` event replaces the whole usage map with
its own `usage` payload; after it, as long as no further `message_delta` or
`message_start` event occurs, the resulting usage is exactly that payload —
shared fields take the `message_delta` values, and fields present only in an
earlier `message_start` payload are discarded rather than retained. -/
theorem c1_message_delta_replaces_usage (st : SSEState) (l2 : List StreamEvent)
    (kvs : List (String × Json)) (u : Json)
    (hu : objLookup kvs "usage" = some u)
    (h2 : ∀ e ∈ l2, e.type ≠ "message_delta".toList ∧ e.type ≠ "message_start".toList) :
    (foldEvents (sseStep st "message_delta".toList (Json.obj kvs)) l2).usage = u := by
  rw [foldEvents_usage_frozen l2 _ h2]
  exact sseStep_usage_delta st kvs u hu

/-- C1 witness: the replacement theorem applied to a concrete state and a
concrete trailing `content_block_delta` event. -/
theorem c1_message_delta_replaces_usage_witness :
    (foldEvents (sseStep initSSE "message_delta".toList
        (Json.obj [("usage", Json.obj [("output_tokens", Json.num 3)])]))
      [{ type := "content_block_delta".toList, data := Json.obj [] }]).usage =
    Json.obj [("output_tokens", Json.num 3)] :=
  c1_message_delta_replaces_usage initSSE
    [{ type := "content_block_delta".toList, data := Json.obj [] }]
    [("usage", Json.obj [("output_tokens", Json.num 3)])]
    (Json.obj [("output_tokens", Json.num 3)]) (by decide) (by decide)

/-! ### C2 -/

/-- C2: the data section of the single block of `c2Body` begins with the
complete JSON object `c2DataObj` (whose `text` string contains a literal
closing brace) followed by trailing bytes, as the second conjunct certifies;
yet the decoder yields no event, no text and no usage for it — the naive
brace count stops inside the string literal, the truncated prefix fails to
parse, and the block is dropped, contradicting the required extraction. -/
theorem c2_brace_scan_drops_block :
    parse_sse_response c2Body = initSSE ∧
    Json.loads c2DataObj = some (Json.obj [("delta", Json.obj [("text", Json.str "\x7d")])]) := by
  decide

/-! ### C4 -/

/-- C4 counterexample: a valid single-block streaming body whose
`content_block_delta` fragment text is `event:x` (a string containing the
block delimiter).  The claim predicts assembled text `event:x`; the decoder
splits inside the data line, never balances the braces, and produces no
text at all. -/
theorem c4_embedded_event_marker_text_lost :
    (parse_sse_response c4Body).full_text = [] ∧
    Json.loads "\x7b\"delta\":\x7b\"text\":\"event:x\"\x7d\x7d" =
      some (Json.obj [("delta", Json.obj [("text", Json.str "event:x")])]) ∧
    "event:x".toList ≠ [] := by
  decide

/-- C4 (amended): for every streaming response body, the assembled text
equals the concatenation, in encounter order, of the `delta.text` fragments
of the `content_block_delta` events the decoder actually yields, regardless
of which other event kinds are interleaved between them; fragments whose
enclosing block is destroyed by an embedded `event:` marker never become
events and are not included. -/
theorem c4_assembled_text_eq_delta_concat (s : List Char) :
    (parse_sse_response s).full_text = deltaConcat (parse_sse_response s).events := by
  unfold parse_sse_response
  exact foldParts_text_inv (splitEvent s) initSSE rfl

/-! ### C6 -/

/-- C6: a block whose data section is missing, whose brace matching never
balances, or whose extracted JSON fails to parse contributes no event, no
text and no usage — the state is returned unchanged — and decoding of the
remaining blocks proceeds exactly as if the bad block were absent. -/
theorem c6_bad_block_contributes_nothing :
    (∀ (st : SSEState) (p : List Char), badPartB p = true → processPart st p = st) ∧
    (∀ (st : SSEState) (pre post : List (List Char)) (p : List Char), badPartB p = true →
      (pre ++ p :: post).foldl processPart st = (pre ++ post).foldl processPart st) := by
  constructor
  · exact fun st p h => processPart_badPart st p h
  · intro st pre post p h
    rw [List.foldl_append, List.foldl_append, List.foldl_cons, processPart_badPart _ p h]

/-- C6 witness: the skip theorem applied to a concrete never-balancing block
sitting between two good blocks. -/
theorem c6_bad_block_contributes_nothing_witness :
    processPart initSSE c6BadBlock = initSSE ∧
    ([c6GoodBlock1] ++ c6BadBlock :: [c6GoodBlock2]).foldl processPart initSSE =
      ([c6GoodBlock1] ++ [c6GoodBlock2]).foldl processPart initSSE :=
  ⟨c6_bad_block_contributes_nothing.1 initSSE c6BadBlock (by decide),
   c6_bad_block_contributes_nothing.2 initSSE [c6GoodBlock1] [c6GoodBlock2] c6BadBlock
     (by decide)⟩

/-! ### C3 -/

/-- C3 (amended): when a non-streaming `response_body` record's body fails
to decode, the handler records `parse_error` on the entry and leaves
`response_text` unassigned, so a conversation whose only response failed to
parse lacks `response_text` and is omitted from the complete-conversation
set rather than surfaced with a malformed marker. -/
theorem c3_parse_failure_marks_error (fkvs : List (String × Json)) (c : Conversation)
    (s : String)
    (hb : objLookup fkvs "body" = some (Json.str s))
    (hs : ((objLookup fkvs "streaming").getD (Json.bool false)).truthy = false)
    (hl : Json.loads s = none) :
    (handleResponseBody fkvs c).parse_error = true ∧
    (handleResponseBody fkvs c).response_text = c.response_text := by
  unfold handleResponseBody
  rw [hb]
  dsimp only
  rw [hs, hl]
  simp

/-- C3 witness: the marking theorem applied to a concrete unparseable
body. -/
theorem c3_parse_failure_marks_error_witness :
    (handleResponseBody [("body", Json.str "not json")] {}).parse_error = true ∧
    (handleResponseBody [("body", Json.str "not json")] {}).response_text =
      (({} : Conversation)).response_text :=
  c3_parse_failure_marks_error [("body", Json.str "not json")] {} "not json"
    (by decide) (by decide) (by decide)

/-- C3 counterexample: a request for `r1` followed by a `response_body`
whose body is not JSON yields an entry with `parse_error` set and no
`response_text`; the complete-conversation set is empty, so the
conversation is omitted, contradicting the claim that it is still
surfaced with a malformed marker. -/
theorem c3_unparseable_response_omitted :
    completeConversations (analyzeConvs [reqLineR1, badRespLineR1]) = [] ∧
    (convLookup (analyzeConvs [reqLineR1, badRespLineR1]) (Json.str "r1")).map
      (fun c => (c.parse_error, c.response_text.isSome, c.request.isNull)) =
      some (true, false, false) := by
  decide

/-! ### Correlator-map lemmas -/

theorem convUpsert_keys (m : ConvMap) (k : Json) (f : Conversation → Conversation) :
    (convUpsert m k f).map Prod.fst =
      if k ∈ m.map Prod.fst then m.map Prod.fst else m.map Prod.fst ++ [k] := by
  induction m with
  | nil => simp [convUpsert]
  | cons kv rest ih =>
    obtain ⟨k2, c⟩ := kv
    by_cases hk : k2 = k
    · simp [convUpsert, hk]
    · by_cases hm : k ∈ rest.map Prod.fst <;>
        simp [convUpsert, hk, Ne.symm hk, hm, ih]

theorem convUpsert_nodup (m : ConvMap) (k : Json) (f : Conversation → Conversation)
    (h : (m.map Prod.fst).Nodup) : ((convUpsert m k f).map Prod.fst).Nodup := by
  rw [convUpsert_keys]
  split
  · exact h
  · rename_i hk
    simp [List.nodup_append, h, hk]

theorem handleRequest_cases (lkvs skvs fkvs : List (String × Json)) (m : ConvMap)
    (rid : Json) :
    handleRequest lkvs skvs fkvs m rid = m ∨
    ∃ f, handleRequest lkvs skvs fkvs m rid = convUpsert m rid f := by
  unfold handleRequest
  repeat' split
  all_goals (first | exact Or.inl rfl | (right; exact ⟨_, rfl⟩))

theorem processRecord_cases (m : ConvMap) (log : Json) :
    processRecord m log = m ∨ ∃ rid f, processRecord m log = convUpsert m rid f := by
  unfold processRecord
  dsimp only
  repeat' split
  all_goals
    (first
      | exact Or.inl rfl
      | (right; exact ⟨_, _, rfl⟩)
      | (rcases handleRequest_cases _ _ _ _ _ with h | ⟨f, h⟩
         · exact Or.inl h
         · exact Or.inr ⟨_, _, h⟩))

theorem processRecord_nodup (m : ConvMap) (log : Json) (h : (m.map Prod.fst).Nodup) :
    ((processRecord m log).map Prod.fst).Nodup := by
  rcases processRecord_cases m log with hc | ⟨rid, f, hc⟩
  · rw [hc]; exact h
  · rw [hc]; exact convUpsert_nodup m rid f h

theorem processLine_nodup (m : ConvMap) (line : List Char) (h : (m.map Prod.fst).Nodup) :
    ((processLine m line).map Prod.fst).Nodup := by
  unfold processLine
  split
  · exact processRecord_nodup _ _ h
  · exact h

theorem foldl_processLine_nodup (lines : List (List Char)) (m : ConvMap)
    (h : (m.map Prod.fst).Nodup) : ((lines.foldl processLine m).map Prod.fst).Nodup := by
  induction lines generalizing m with
  | nil => exact h
  | cons l rest ih => exact ih _ (processLine_nodup m l h)

theorem convUpsert_convUpsert_same (m : ConvMap) (k : Json)
    (f g : Conversation → Conversation) :
    convUpsert (convUpsert m k f) k g = convUpsert m k (fun c => g (f c)) := by
  induction m with
  | nil => simp [convUpsert]
  | cons kv rest ih =>
    obtain ⟨k2, c⟩ := kv
    by_cases hk : k2 = k <;> simp [convUpsert, hk, ih]

theorem convUpsert_congr (m : ConvMap) (k : Json) (f g : Conversation → Conversation)
    (h : ∀ c, f c = g c) : convUpsert m k f = convUpsert m k g := by
  induction m with
  | nil => simp [convUpsert, h]
  | cons kv rest ih =>
    obtain ⟨k2, c⟩ := kv
    by_cases hk : k2 = k <;> simp [convUpsert, hk, ih, h]

theorem convLookup_convUpsert_self (m : ConvMap) (k : Json)
    (f : Conversation → Conversation) :
    convLookup (convUpsert m k f) k = some (f ((convLookup m k).getD {})) := by
  induction m with
  | nil => simp [convUpsert, convLookup]
  | cons kv rest ih =>
    obtain ⟨k2, c⟩ := kv
    by_cases hk : k2 = k <;> simp [convUpsert, convLookup, hk, ih]

theorem handleResponseBody_req_fields (fkvs : List (String × Json)) (c : Conversation)
    (r mo a t : Json) :
    handleResponseBody fkvs
        { c with request := r, model := mo, api_key := a, timestamp := t } =
      { handleResponseBody fkvs c with
          request := r, model := mo, api_key := a, timestamp := t } := by
  unfold handleResponseBody
  dsimp only
  repeat' split
  all_goals rfl

theorem handleResponseBody_request (fkvs : List (String × Json)) (c : Conversation) :
    (handleResponseBody fkvs c).request = c.request := by
  unfold handleResponseBody
  dsimp only
  repeat' split
  all_goals rfl

theorem handleResponseBody_evidence (fkvs : List (String × Json)) (c : Conversation) :
    (handleResponseBody fkvs c).response_raw.isSome = true ∨
    (handleResponseBody fkvs c).parse_error = true := by
  unfold handleResponseBody
  dsimp only
  repeat' split
  all_goals simp

theorem processRecord_req (m : ConvMap) (lkvs fkvs skvs : List (String × Json))
    (rid : Json) (btxt : String) (body : Json)
    (h : reqRecordParts lkvs fkvs skvs rid btxt body) :
    processRecord m (Json.obj lkvs) =
      convUpsert m rid (fun c =>
        { c with request := body,
                 model := (objLookup skvs "model").getD Json.null,
                 api_key := (objLookup skvs "api_key_name").getD Json.null,
                 timestamp := (objLookup lkvs "timestamp").getD Json.null }) := by
  obtain ⟨h1, h2, h3, h4, h5, h6, h7⟩ := h
  unfold processRecord
  dsimp only
  simp only [h1, h2, h3]
  simp only [Option.getD_some]
  simp [h4, h5, show (Json.str "request_body").truthy = true from by decide]
  unfold handleRequest
  rw [h6]
  dsimp only
  rw [h7]

theorem processRecord_resp (m : ConvMap) (lkvs fkvs skvs : List (String × Json))
    (rid : Json) (h : respRecordParts lkvs fkvs skvs rid) :
    processRecord m (Json.obj lkvs) = convUpsert m rid (handleResponseBody fkvs) := by
  obtain ⟨h1, h2, h3, h4, h5⟩ := h
  unfold processRecord
  dsimp only
  simp only [h1, h2, h3]
  simp only [Option.getD_some]
  simp [h4, h5, show (Json.str "response_body").truthy = true from by decide]

/-! ### C5 -/

/-- C5: every `request_id` maps to at most one entry of the conversations
mapping (its keys stay duplicate-free), and a `request_body` and a
`response_body` record bearing the same id commute — processing them in
either order yields the same mapping, whose single entry for that id holds
both the decoded request and the response evidence. -/
theorem c5_unique_entry_and_order_independent_merge :
    (∀ lines : List (List Char), ((analyzeConvs lines).map Prod.fst).Nodup) ∧
    (∀ (m : ConvMap) (lkvs fkvs skvs lkvs2 fkvs2 skvs2 : List (String × Json))
       (rid : Json) (btxt : String) (body : Json),
      reqRecordParts lkvs fkvs skvs rid btxt body →
      respRecordParts lkvs2 fkvs2 skvs2 rid →
      (processRecord (processRecord m (Json.obj lkvs)) (Json.obj lkvs2) =
        processRecord (processRecord m (Json.obj lkvs2)) (Json.obj lkvs) ∧
       ∃ c, convLookup (processRecord (processRecord m (Json.obj lkvs)) (Json.obj lkvs2)) rid =
              some c ∧
         c.request = body ∧ (c.response_raw.isSome = true ∨ c.parse_error = true))) := by
  constructor
  · exact fun lines => foldl_processLine_nodup lines [] (by simp)
  · intro m lkvs fkvs skvs lkvs2 fkvs2 skvs2 rid btxt body hr hp
    rw [processRecord_req m lkvs fkvs skvs rid btxt body hr,
      processRecord_resp _ lkvs2 fkvs2 skvs2 rid hp,
      processRecord_resp m lkvs2 fkvs2 skvs2 rid hp,
      processRecord_req _ lkvs fkvs skvs rid btxt body hr,
      convUpsert_convUpsert_same, convUpsert_convUpsert_same]
    constructor
    · apply convUpsert_congr
      intro c
      exact handleResponseBody_req_fields fkvs2 c body
        ((objLookup skvs "model").getD Json.null)
        ((objLookup skvs "api_key_name").getD Json.null)
        ((objLookup lkvs "timestamp").getD Json.null)
    · rw [convLookup_convUpsert_self]
      refine ⟨_, rfl, ?_, ?_⟩
      · rw [handleResponseBody_request]
      · exact handleResponseBody_evidence fkvs2 _

/-- C5 witness: the claim applied to concrete input lines and to a concrete
request/response record pair. -/
theorem c5_unique_entry_and_order_independent_merge_witness :
    ((analyzeConvs [reqLineR1, badRespLineR1]).map Prod.fst).Nodup ∧
    processRecord (processRecord [] (Json.obj wReqLkvs)) (Json.obj wRespLkvs) =
      processRecord (processRecord [] (Json.obj wRespLkvs)) (Json.obj wReqLkvs) :=
  ⟨c5_unique_entry_and_order_independent_merge.1 [reqLineR1, badRespLineR1],
   (c5_unique_entry_and_order_independent_merge.2 [] wReqLkvs wReqFkvs wSkvs wRespLkvs wRespFkvs wSkvs (Json.str "r1")
      "\x7b\"model\":\"m1\",\"stream\":true\x7d"
      (Json.obj [("model", Json.str "m1"), ("stream", Json.bool true)])
      (by decide) (by decide)).1⟩

theorem rconvSet_rconvSet_same (cs : List (Json × ReportConv)) (k : Json)
    (v1 v2 : ReportConv) : rconvSet (rconvSet cs k v1) k v2 = rconvSet cs k v2 := by
  induction cs with
  | nil => simp [rconvSet]
  | cons kv rest ih =>
    obtain ⟨k2, c⟩ := kv
    by_cases hk : k2 = k <;> simp [rconvSet, hk, ih]

theorem reportProcessRecord_req (s : RState) (lkvs fkvs skvs bkvs : List (String × Json))
    (rid : Json) (btxt : String)
    (h : reportReqRecordParts lkvs fkvs skvs bkvs rid btxt) :
    reportProcessRecord s (Json.obj lkvs) = some
      { s with total_requests := s.total_requests + 1,
               models := bumpCount s.models ((objLookup bkvs "model").getD (Json.str "unknown")),
               api_keys := bumpCount s.api_keys
                 ((objLookup skvs "api_key_name").getD (Json.str "unknown")),
               conversations := rconvSet s.conversations rid
                 { model := (objLookup bkvs "model").getD (Json.str "unknown"),
                   api_key := (objLookup skvs "api_key_name").getD (Json.str "unknown"),
                   request := Json.obj bkvs,
                   timestamp := (objLookup lkvs "timestamp").getD Json.null },
               request_bodies := s.request_bodies ++
                 [(rid, (objLookup bkvs "model").getD (Json.str "unknown"), Json.obj bkvs)] } := by
  obtain ⟨h0, h1, h2, h3, h4, h5, h6, h7, h8, h9⟩ := h
  unfold reportProcessRecord reportErrStep reportReqStep
  dsimp only
  rw [if_neg h0]
  dsimp only [Option.bind]
  simp only [h1, Option.getD_some]
  rw [if_pos h2]
  simp only [h3, Option.getD_some]
  rw [h8]
  unfold reportReqTry
  rw [h4]
  dsimp only
  rw [h5]
  dsimp only
  rw [if_pos h6, if_pos h7, if_pos h9]

/-! ### C10 -/

/-- C10: when two decodable `request_body` records share a `request_id`,
the later one fully determines the entry: in `analyze_conversations`
processing both records equals processing only the second (body, model,
api_key and timestamp all come from it), and in the report script the
`conversations` component likewise equals the one produced by the second
record alone. -/
theorem c10_last_request_wins :
    (∀ (m : ConvMap) (lkvs fkvs skvs lkvs2 fkvs2 skvs2 : List (String × Json))
       (rid : Json) (b1 b2 : String) (body1 body2 : Json),
      reqRecordParts lkvs fkvs skvs rid b1 body1 →
      reqRecordParts lkvs2 fkvs2 skvs2 rid b2 body2 →
      (processRecord (processRecord m (Json.obj lkvs)) (Json.obj lkvs2) =
        processRecord m (Json.obj lkvs2) ∧
       ∃ c, convLookup (processRecord (processRecord m (Json.obj lkvs)) (Json.obj lkvs2)) rid =
              some c ∧
         c.request = body2 ∧ c.model = (objLookup skvs2 "model").getD Json.null ∧
         c.api_key = (objLookup skvs2 "api_key_name").getD Json.null ∧
         c.timestamp = (objLookup lkvs2 "timestamp").getD Json.null)) ∧
    (∀ (s s1 : RState) (lkvs fkvs skvs bkvs lkvs2 fkvs2 skvs2 bkvs2 : List (String × Json))
       (rid : Json) (b1 b2 : String),
      reportReqRecordParts lkvs fkvs skvs bkvs rid b1 →
      reportReqRecordParts lkvs2 fkvs2 skvs2 bkvs2 rid b2 →
      reportProcessRecord s (Json.obj lkvs) = some s1 →
      (reportProcessRecord s1 (Json.obj lkvs2)).map (fun x => x.conversations) =
        (reportProcessRecord s (Json.obj lkvs2)).map (fun x => x.conversations)) := by
  constructor
  · intro m lkvs fkvs skvs lkvs2 fkvs2 skvs2 rid b1 b2 body1 body2 h1 h2
    rw [processRecord_req m lkvs fkvs skvs rid b1 body1 h1,
      processRecord_req _ lkvs2 fkvs2 skvs2 rid b2 body2 h2,
      processRecord_req m lkvs2 fkvs2 skvs2 rid b2 body2 h2,
      convUpsert_convUpsert_same]
    constructor
    · apply convUpsert_congr
      intro c
      rfl
    · rw [convLookup_convUpsert_self]
      exact ⟨_, rfl, rfl, rfl, rfl, rfl⟩
  · intro s s1 lkvs fkvs skvs bkvs lkvs2 fkvs2 skvs2 bkvs2 rid b1 b2 hA hB hs1
    rw [reportProcessRecord_req s lkvs fkvs skvs bkvs rid b1 hA] at hs1
    injection hs1 with hs1
    subst hs1
    rw [reportProcessRecord_req _ lkvs2 fkvs2 skvs2 bkvs2 rid b2 hB,
      reportProcessRecord_req s lkvs2 fkvs2 skvs2 bkvs2 rid b2 hB]
    simp only [Option.map_some]
    rw [rconvSet_rconvSet_same]
    rfl

/-- C10 witness: the last-write-wins theorem applied to two concrete
request records sharing `request_id` `r1`. -/
theorem c10_last_request_wins_witness :
    processRecord (processRecord [] (Json.obj wReqLkvs)) (Json.obj wReqLkvs2) =
      processRecord [] (Json.obj wReqLkvs2) ∧
    (reportProcessRecord wRState1 (Json.obj wReqLkvs2)).map (fun x => x.conversations) =
      (reportProcessRecord {} (Json.obj wReqLkvs2)).map (fun x => x.conversations) :=
  ⟨(c10_last_request_wins.1 [] wReqLkvs wReqFkvs wSkvs wReqLkvs2 wReqFkvs2 wSkvs2
      (Json.str "r1") "\x7b\"model\":\"m1\",\"stream\":true\x7d" "\x7b\"model\":\"m2\"\x7d"
      (Json.obj [("model", Json.str "m1"), ("stream", Json.bool true)])
      (Json.obj [("model", Json.str "m2")])
      (by decide) (by decide)).1,
   c10_last_request_wins.2 {} wRState1 wReqLkvs wReqFkvs wSkvs
      [("model", Json.str "m1"), ("stream", Json.bool true)]
      wReqLkvs2 wReqFkvs2 wSkvs2 [("model", Json.str "m2")]
      (Json.str "r1") "\x7b\"model\":\"m1\",\"stream\":true\x7d" "\x7b\"model\":\"m2\"\x7d"
      (by decide) (by decide) (by decide)⟩

/-! ### C7 -/

/-- C7 (amended): whenever the four usage sums evaluate without raising and
the summed input tokens are nonnegative, the cache-hit computation succeeds
with no division error and — when it is computed at all, i.e. when
`total_cache_read > 0` — equals `100 * totalCacheRead / max(totalInput, 1)`;
at `totalInput = 0` the denominator falls back to `1`, so the percentage is
`100 * totalCacheRead`, which is nonzero whenever it is computed. -/
theorem c7_cache_hit_formula (cs : List Conversation) (ti tcr : Int)
    (hti : sumUsageField cs "input_tokens" = some ti)
    (htcr : sumUsageField cs "cache_read_input_tokens" = some tcr)
    (hnn : 0 ≤ ti) :
    cacheHitPct cs =
      some (if 0 < tcr then some ((tcr : ℚ) / ((max ti 1 : Int) : ℚ) * 100) else none) := by
  have hden : (if ti = 0 then (1 : ℚ) else (ti : ℚ)) = ((max ti 1 : Int) : ℚ) := by
    by_cases h0 : ti = 0
    · subst h0; norm_num
    · have h1 : (1 : Int) ≤ ti := by omega
      rw [if_neg h0, max_eq_left h1]
  unfold cacheHitPct
  rw [hti, htcr]
  simp only [Option.bind_eq_bind, Option.some_bind]
  rw [hden]
  rfl

/-- C7 counterexample: a complete conversation whose usage has
`cache_read_input_tokens = 5` and no `input_tokens` gives `totalInput = 0`
and a cache-hit percentage of `500`, not `0`, contradicting the claim that
the ratio is `0` when `totalInput = 0`. -/
theorem c7_zero_input_nonzero_pct :
    sumUsageField c7cs "input_tokens" = some 0 ∧
    cacheHitPct c7cs = some (some 500) ∧ ((500 : ℚ) ≠ 0) := by
  refine ⟨by decide, ?_, by norm_num⟩
  unfold cacheHitPct
  have h1 : sumUsageField c7cs "input_tokens" = some 0 := by decide
  have h2 : sumUsageField c7cs "cache_read_input_tokens" = some 5 := by decide
  rw [h1, h2]
  simp only [Option.bind_eq_bind, Option.some_bind]
  norm_num

/-- C7 witness: the formula theorem applied to the concrete mapping with
`totalInput = 0` and `totalCacheRead = 5`. -/
theorem c7_cache_hit_formula_witness :
    cacheHitPct c7cs =
      some (if (0 : Int) < 5 then
        some (((5 : Int) : ℚ) / ((max (0 : Int) 1 : Int) : ℚ) * 100) else none) :=
  c7_cache_hit_formula c7cs 0 5 (by decide) (by decide) (by decide)

theorem objLookup_isSome_eq_any (kvs : List (String × Json)) (k : String) :
    (objLookup kvs k).isSome = kvs.any (fun kv => kv.1 == k) := by
  induction kvs with
  | nil => rfl
  | cons kv rest ih =>
    obtain ⟨k2, v⟩ := kv
    by_cases hk : k2 = k <;> simp [objLookup, hk, ih]

theorem aggCacheStep_total (rkvs : List (String × Json)) (st : AggStats)
    (h : (!((objLookup rkvs "system").getD Json.null).truthy ||
          (iterItems ((objLookup rkvs "system").getD Json.null)).isSome) = true) :
    (aggCacheStep rkvs st).isSome = true := by
  unfold aggCacheStep
  dsimp only
  split
  · rename_i htr
    rw [htr] at h
    simp only [Bool.not_true, Bool.false_or] at h
    rcases Option.isSome_iff_exists.mp h with ⟨items, hit⟩
    rw [hit]
    rfl
  · rfl

theorem aggOutputStep_total (rkvs : List (String × Json)) (st : AggStats)
    (h : (match objLookup rkvs "output_config" with
          | none => true
          | some (Json.obj okvs) =>
            (match (objLookup okvs "format").getD (Json.obj []) with
             | Json.obj _ => true
             | _ => false)
          | some _ => false) = true) :
    (aggOutputStep rkvs st).isSome = true := by
  unfold aggOutputStep
  split
  · rename_i hany
    split at h
    · rename_i heq
      rw [← objLookup_isSome_eq_any, heq] at hany
      simp at hany
    · rename_i okvs heq
      rw [heq]
      dsimp only
      split at h
      · rfl
      · simp at h
    · simp at h
  · rfl

theorem aggStepReport_total (st : AggStats) (conv : ReportConv)
    (h : reqAggSafe conv.request = true) : (aggStepReport st conv).isSome = true := by
  unfold aggStepReport
  rcases hreq : conv.request with _ | b | n | sv | xs | rkvs <;> rw [hreq] at h <;>
    unfold reqAggSafe at h <;> dsimp only at h <;>
    all_goals try exact (Bool.false_ne_true h).elim
  rw [Bool.and_eq_true] at h
  obtain ⟨hsys, hoc⟩ := h
  have h1 := aggCacheStep_total rkvs (aggCountersStep rkvs st) hsys
  rcases Option.isSome_iff_exists.mp h1 with ⟨st1, hst1⟩
  dsimp only
  rw [hst1, Option.some_bind]
  exact aggOutputStep_total rkvs st1 hoc

theorem foldlM_aggStep_total (convs : List (Json × ReportConv)) (st : AggStats)
    (hsafe : ∀ kv ∈ convs, reqAggSafe kv.2.request = true) :
    (convs.foldlM (fun st kv => aggStepReport st kv.2) st).isSome = true := by
  induction convs generalizing st with
  | nil => rfl
  | cons kv rest ih =>
    have h1 := aggStepReport_total st kv.2 (hsafe kv (by simp))
    rcases Option.isSome_iff_exists.mp h1 with ⟨st1, hst1⟩
    rw [List.foldlM_cons, hst1]
    simp only [Option.bind_eq_bind, Option.some_bind]
    exact ih st1 (fun x hx => hsafe x (by simp [hx]))

/-! ### C8 -/

/-- C8 (amended): the interaction-type aggregation succeeds on every
nonempty conversation mapping whose request bodies are dicts with iterable
truthy `system` values and well-shaped `output_config` entries, and the
reported streaming percentage is `100 * streaming_count / totalConversations`;
on the empty mapping the very same ratio raises `ZeroDivisionError`, and
malformed `system`/`output_config` values raise instead of counting as
false. -/
theorem c8_aggregate_total_on_wellformed (convs : List (Json × ReportConv))
    (hne : convs ≠ [])
    (hsafe : ∀ kv ∈ convs, reqAggSafe kv.2.request = true) :
    ∃ r, aggregateReport convs = some r ∧
      r.streamingPct = (r.counts.streaming_count : ℚ) / (convs.length : ℚ) * 100 := by
  have h1 := foldlM_aggStep_total convs {} hsafe
  rcases Option.isSome_iff_exists.mp h1 with ⟨st2, hst2⟩
  unfold aggregateReport
  rw [hst2]
  simp only [Option.bind_eq_bind, Option.some_bind]
  rw [if_neg (by simpa using hne)]
  exact ⟨_, rfl, rfl⟩

/-- C8 counterexample: on the empty conversation mapping the aggregate
computation raises (`streaming_count / len(conversations)` divides by
zero), contradicting the claim that it succeeds for every mapping
including the empty one. -/
theorem c8_empty_mapping_raises : aggregateReport [] = none := by rfl

/-- C8 witness: the totality theorem applied to a concrete one-entry
mapping with a streaming request. -/
theorem c8_aggregate_total_on_wellformed_witness :
    ∃ r, aggregateReport [(Json.str "r1",
        { model := Json.str "m1", api_key := Json.str "k1",
          request := Json.obj [("stream", Json.bool true)],
          timestamp := Json.null })] = some r ∧
      r.streamingPct = (r.counts.streaming_count : ℚ) /
        (([(Json.str "r1",
          ({ model := Json.str "m1", api_key := Json.str "k1",
             request := Json.obj [("stream", Json.bool true)],
             timestamp := Json.null } : ReportConv))] : List (Json × ReportConv)).length : ℚ) * 100 :=
  c8_aggregate_total_on_wellformed _ (by decide) (by decide)

theorem bumpCount_countOf (ms : List (Json × Nat)) (k k2 : Json) :
    countOf (bumpCount ms k) k2 = countOf ms k2 + (if k = k2 then 1 else 0) := by
  induction ms with
  | nil => by_cases hk : k = k2 <;> simp [bumpCount, countOf, hk]
  | cons kv rest ih =>
    obtain ⟨k3, n⟩ := kv
    by_cases h3 : k3 = k
    · subst h3
      by_cases h2 : k3 = k2 <;> simp [bumpCount, countOf, h2]
    · by_cases h2 : k3 = k2
      · have hk2 : ¬ k = k2 := fun he => h3 (by rw [he, ← h2])
        have hk2b : ¬ k2 = k := fun he => hk2 he.symm
        simp [bumpCount, countOf, h3, h2, hk2, hk2b]
      · simp [bumpCount, countOf, h3, h2, ih]

theorem reportReqTry_models (lkvs skvs fkvs : List (String × Json)) (rid : Json)
    (s : RState) (mkey : Json) :
    countOf (reportReqTry lkvs skvs fkvs rid s).models mkey =
      countOf s.models mkey + (if bodyModelKey fkvs = some mkey then 1 else 0) := by
  unfold reportReqTry bodyModelKey
  rcases hb : objLookup fkvs "body" with _ | bj
  · simp
  rcases bj with _ | b | nn | btxt | xs | kvb
  case str =>
    rcases hl : Json.loads btxt with _ | bv
    · simp [hl]
    rcases bv with _ | b2 | n2 | st2 | xs2 | bkvs
    case obj =>
      simp only [hl]
      by_cases hm : ((objLookup bkvs "model").getD (Json.str "unknown")).hashable = true
      · simp only [if_pos hm]
        simp [apply_ite, bumpCount_countOf]
      · simp only [if_neg hm]
        simp
    all_goals simp [hl]
  all_goals simp

theorem reportReqTry_apiKeys (lkvs skvs fkvs : List (String × Json)) (rid : Json)
    (s : RState) (akey : Json) :
    countOf (reportReqTry lkvs skvs fkvs rid s).api_keys akey =
      countOf s.api_keys akey + (if tryApiKey fkvs skvs = some akey then 1 else 0) := by
  unfold reportReqTry tryApiKey
  rcases hb : objLookup fkvs "body" with _ | bj
  · simp
  rcases bj with _ | b | nn | btxt | xs | kvb
  case str =>
    rcases hl : Json.loads btxt with _ | bv
    · simp [hl]
    rcases bv with _ | b2 | n2 | st2 | xs2 | bkvs
    case obj =>
      simp only [hl]
      by_cases hm : ((objLookup bkvs "model").getD (Json.str "unknown")).hashable = true
      · simp only [if_pos hm]
        by_cases hak :
            ((objLookup skvs "api_key_name").getD (Json.str "unknown")).hashable = true
        · simp only [if_pos hak]
          simp [apply_ite, bumpCount_countOf]
        · simp only [if_neg hak]
          simp
      · simp only [if_neg hm]
        simp
    all_goals simp [hl]
  all_goals simp

theorem reportErrStep_effects (lkvs : List (String × Json)) (s s2 : RState)
    (h : reportErrStep lkvs s = some s2) :
    s2.models = s.models ∧ s2.api_keys = s.api_keys := by
  unfold reportErrStep at h
  split at h
  · split at h
    · dsimp only at h
      split at h
      · injection h with h
        subst h
        exact ⟨rfl, rfl⟩
      · exact Option.noConfusion h
    · exact Option.noConfusion h
  · injection h with h
    subst h
    exact ⟨rfl, rfl⟩

theorem reportReqStep_models (lkvs : List (String × Json)) (s s2 : RState) (mkey : Json)
    (h : reportReqStep lkvs s = some s2) :
    countOf s2.models mkey = countOf s.models mkey +
      (if recordModelKey (Json.obj lkvs) = some mkey then 1 else 0) := by
  unfold reportReqStep at h
  unfold recordModelKey
  dsimp only
  split at h
  · rename_i fkvs hfk
    split at h
    · rename_i hevt
      split at h
      · rename_i skvs hsp
        injection h with h
        subst h
        simp only [if_pos hevt]
        exact reportReqTry_models lkvs skvs fkvs _ _ mkey
      · exact Option.noConfusion h
    · rename_i hevt
      injection h with h
      subst h
      simp only [if_neg hevt]
      simp
  · exact Option.noConfusion h

theorem reportReqStep_apiKeys (lkvs : List (String × Json)) (s s2 : RState) (akey : Json)
    (h : reportReqStep lkvs s = some s2) :
    countOf s2.api_keys akey = countOf s.api_keys akey +
      (if recordApiKey (Json.obj lkvs) = some akey then 1 else 0) := by
  unfold reportReqStep at h
  unfold recordApiKey
  dsimp only
  split at h
  · rename_i fkvs hfk
    split at h
    · rename_i hevt
      split at h
      · rename_i skvs hsp
        injection h with h
        subst h
        simp only [if_pos hevt]
        try rw [hsp]
        try dsimp only
        exact reportReqTry_apiKeys lkvs skvs fkvs _ _ akey
      · exact Option.noConfusion h
    · rename_i hevt
      injection h with h
      subst h
      simp only [if_neg hevt]
      simp
  · exact Option.noConfusion h

theorem reportProcessRecord_models (s : RState) (log : Json) (s2 : RState) (mkey : Json)
    (h : reportProcessRecord s log = some s2) :
    countOf s2.models mkey = countOf s.models mkey +
      (if recordModelKey log = some mkey then 1 else 0) := by
  unfold reportProcessRecord at h
  rcases log with _ | b | n | sv | xs | lkvs
  all_goals try exact Option.noConfusion h
  dsimp only at h
  rcases he : reportErrStep lkvs s with _ | s1 <;> rw [he] at h
  · exact Option.noConfusion h
  · simp only [Option.some_bind] at h
    have heff := reportErrStep_effects lkvs s s1 he
    rw [reportReqStep_models lkvs s1 s2 mkey h, heff.1]

theorem reportProcessRecord_apiKeys (s : RState) (log : Json) (s2 : RState) (akey : Json)
    (h : reportProcessRecord s log = some s2) :
    countOf s2.api_keys akey = countOf s.api_keys akey +
      (if recordApiKey log = some akey then 1 else 0) := by
  unfold reportProcessRecord at h
  rcases log with _ | b | n | sv | xs | lkvs
  all_goals try exact Option.noConfusion h
  dsimp only at h
  rcases he : reportErrStep lkvs s with _ | s1 <;> rw [he] at h
  · exact Option.noConfusion h
  · simp only [Option.some_bind] at h
    have heff := reportErrStep_effects lkvs s s1 he
    rw [reportReqStep_apiKeys lkvs s1 s2 akey h, heff.2]

theorem reportProcessLine_models (s : RState) (line : List Char) (s2 : RState) (mkey : Json)
    (h : reportProcessLine s line = some s2) :
    countOf s2.models mkey = countOf s.models mkey +
      (if lineModelKey line = some mkey then 1 else 0) := by
  unfold reportProcessLine at h
  unfold lineModelKey
  split at h
  · rename_i log hl
    rw [hl]
    simp only [Option.some_bind]
    exact reportProcessRecord_models s log s2 mkey h
  · rename_i hl
    rw [hl]
    injection h with h
    subst h
    simp

theorem reportProcessLine_apiKeys (s : RState) (line : List Char) (s2 : RState) (akey : Json)
    (h : reportProcessLine s line = some s2) :
    countOf s2.api_keys akey = countOf s.api_keys akey +
      (if lineApiKey line = some akey then 1 else 0) := by
  unfold reportProcessLine at h
  unfold lineApiKey
  split at h
  · rename_i log hl
    rw [hl]
    simp only [Option.some_bind]
    exact reportProcessRecord_apiKeys s log s2 akey h
  · rename_i hl
    rw [hl]
    injection h with h
    subst h
    simp

theorem reportPass_models (lines : List (List Char)) (s0 s : RState) (mkey : Json)
    (h : lines.foldlM reportProcessLine s0 = some s) :
    countOf s.models mkey = countOf s0.models mkey +
      (lines.map lineModelKey).count (some mkey) := by
  induction lines generalizing s0 with
  | nil =>
    simp only [List.foldlM_nil] at h
    injection h with h
    subst h
    simp
  | cons l rest ih =>
    rw [List.foldlM_cons] at h
    rcases hl : reportProcessLine s0 l with _ | s1 <;> rw [hl] at h <;>
      simp only [Option.bind_eq_bind, Option.none_bind, Option.some_bind] at h
    · exact Option.noConfusion h
    · have h1 := reportProcessLine_models s0 l s1 mkey hl
      rw [ih s1 h, h1, List.map_cons, List.count_cons]
      by_cases hm : lineModelKey l = some mkey <;> simp [hm] <;> omega

theorem reportPass_apiKeys (lines : List (List Char)) (s0 s : RState) (akey : Json)
    (h : lines.foldlM reportProcessLine s0 = some s) :
    countOf s.api_keys akey = countOf s0.api_keys akey +
      (lines.map lineApiKey).count (some akey) := by
  induction lines generalizing s0 with
  | nil =>
    simp only [List.foldlM_nil] at h
    injection h with h
    subst h
    simp
  | cons l rest ih =>
    rw [List.foldlM_cons] at h
    rcases hl : reportProcessLine s0 l with _ | s1 <;> rw [hl] at h <;>
      simp only [Option.bind_eq_bind, Option.none_bind, Option.some_bind] at h
    · exact Option.noConfusion h
    · have h1 := reportProcessLine_apiKeys s0 l s1 akey hl
      rw [ih s1 h, h1, List.map_cons, List.count_cons]
      by_cases hm : lineApiKey l = some akey <;> simp [hm] <;> omega

/-! ### C9 -/

/-- C9 (amended): whenever the report script's first pass completes, the
per-model and per-API-key histograms count every successfully decoded
`request_body` record exactly once — one bump per record, as captured by
`lineModelKey`/`lineApiKey` — so a `request_id` appearing in several
decoded request records contributes several counts even though the
conversations mapping keeps a single entry; records that fail to decode
and `response_body` records contribute nothing. -/
theorem c9_histograms_count_records (lines : List (List Char)) (s : RState)
    (h : reportFirstPass lines = some s) (mkey akey : Json) :
    countOf s.models mkey = (lines.map lineModelKey).count (some mkey) ∧
    countOf s.api_keys akey = (lines.map lineApiKey).count (some akey) := by
  unfold reportFirstPass at h
  constructor
  · simpa [countOf] using reportPass_models lines {} s mkey h
  · simpa [countOf] using reportPass_apiKeys lines {} s akey h

/-- C9 counterexample: two identical decoded request records with the same
`request_id` leave one conversation entry but a model-histogram count of
`2`, contradicting the claim that each conversation with a decoded request
is counted exactly once keyed by its `request_id`. -/
theorem c9_duplicate_request_counted_twice :
    (reportFirstPass [c9ReqLine, c9ReqLine]).map
      (fun s => (countOf s.models (Json.str "m1"), s.conversations.length)) =
      some (2, 1) := by decide

/-- C9 witness: the per-record counting theorem applied to two good records
and one undecodable one. -/
theorem c9_histograms_count_records_witness :
    countOf c9WitState.models (Json.str "m1") =
      (([c9ReqLine, c9ReqLine, c9BadBodyLine]).map lineModelKey).count
        (some (Json.str "m1")) ∧
    countOf c9WitState.api_keys (Json.str "k1") =
      (([c9ReqLine, c9ReqLine, c9BadBodyLine]).map lineApiKey).count
        (some (Json.str "k1")) :=
  c9_histograms_count_records [c9ReqLine, c9ReqLine, c9BadBodyLine] c9WitState
    (by decide) (Json.str "m1") (Json.str "k1")

/-! ### Evaluation checks of the embedded decoders -/

example : Json.loads "\x7b\"a\": 1, \"b\": [true, null, \"x\"]\x7d" =
    some (Json.obj [("a", Json.num 1),
      ("b", Json.arr [Json.bool true, Json.null, Json.str "x"])]) := by decide

example : Json.loads "\x7b\"a\":\"\x7d\"\x7d" =
    some (Json.obj [("a", Json.str "\x7d")]) := by decide

example : Json.loads "\x7b\"a\":1" = none := by decide

example : Json.loads "-12" = some (Json.num (-12)) := by decide

example : Json.loads "01" = none := by decide

example : Json.loads "\"a\\nb\"" = some (Json.str "a\nb") := by decide

example :
    parse_sse_response ("event: content_block_delta\ndata: \x7b\"delta\":\x7b\"text\":\"he\"\x7d\x7d\nevent: content_block_delta\ndata: \x7b\"delta\":\x7b\"text\":\"llo\"\x7d\x7d\nevent: message_delta\ndata: \x7b\"usage\":\x7b\"output_tokens\":3\x7d\x7d").toList =
    { full_text := "hello".toList,
      usage := Json.obj [("output_tokens", Json.num 3)],
      events := [
        { type := "content_block_delta".toList,
          data := Json.obj [("delta", Json.obj [("text", Json.str "he")])] },
        { type := "content_block_delta".toList,
          data := Json.obj [("delta", Json.obj [("text", Json.str "llo")])] },
        { type := "message_delta".toList,
          data := Json.obj [("usage", Json.obj [("output_tokens", Json.num 3)])] }] } := by
  decide
